import Mathlib

/-!
Verification of the contact-manager `train_main.py` against its
specification.  The Python source is shallowly embedded: Python strings
become `String`, lists become `List`, `dict` becomes an insertion-ordered
association list with unique keys, exceptions become explicit result
values, and the `@input_error` decorator's exception-to-message mapping is
baked into each command handler.
-/

namespace TrainMain

/-- Python dynamic values as they flow through phone comparisons: either a
`str` or a `Phone` instance (which wraps its validated string).  Needed
because `change_contact_command` passes a `Phone` object where
`remove_phone` expects a string. -/
inductive PyVal : Type where
  | str : String → PyVal
  | phoneObj : String → PyVal
deriving DecidableEq, Repr

/-- Python `==`/`!=` semantics for the values above: two `str`s compare by
content; a `str` never equals a `Phone` instance (the `Field` classes
define no `__eq__`, so cross-type comparison falls back to identity and is
false). `Phone`-vs-`Phone` identity comparison never arises in the code
paths modelled here, so it is conservatively false. -/
def pyValEq : PyVal → PyVal → Bool
  | .str a, .str b => a == b
  | _, _ => false

/-- Python `str.isdigit`: false on the empty string, otherwise true when
every character is a digit.  The embedding's character model is the
decimal digits `0`-`9`; Python's `isdigit` additionally accepts some
non-ASCII Unicode digit characters, a distinction outside this
embedding's character model. -/
def pyStrIsDigit (s : String) : Bool :=
  !s.isEmpty && s.toList.all Char.isDigit

/-- `Phone.__init__` (train_main.py lines 14-18):
`if not value.isdigit() or len(value) != 10: raise ValueError(...)`. -/
def PhoneInit (value : String) : Except String String :=
  if pyStrIsDigit value = false ∨ value.length ≠ 10 then
    .error "Invalid phone number format. It should contain 10 digits."
  else
    .ok value

/-- Does the head of the list exist and differ from the at-sign? -/
def headNotAt : List Char → Bool
  | c :: _ => c ≠ '@'
  | [] => false

/-- Matches the regex fragment `[^@]*\.[^@]+` against a prefix of the
input (with backtracking: a dot may be consumed by the star or serve as
the literal). -/
def matchDotTail : List Char → Bool
  | [] => false
  | a :: rest =>
    if a = '@' then false
    else (a = '.' && headNotAt rest) || matchDotTail rest

/-- Matches the regex fragment `[^@]+\.[^@]+` against a prefix of the
input. -/
def matchAfterAt : List Char → Bool
  | [] => false
  | a :: rest => a ≠ '@' && matchDotTail rest

/-- Matches `[^@]*@[^@]+\.[^@]+` against a prefix: skip non-`@`
characters up to the first `@`, then match the tail fragment. -/
def matchAtLocal : List Char → Bool
  | [] => false
  | a :: rest => if a = '@' then matchAfterAt rest else matchAtLocal rest

/-- `re.match(r"[^@]+@[^@]+\.[^@]+", value)` as a Boolean: does the
regex match a PREFIX of the input (Python `re.match` anchors only at the
start, not at the end)? -/
def emailRegexMatch : List Char → Bool
  | [] => false
  | a :: rest => a ≠ '@' && matchAtLocal rest

/-- `Email.__init__` (train_main.py lines 19-23). -/
def EmailInit (value : String) : Except String String :=
  if emailRegexMatch value.toList then .ok value
  else .error "Invalid email format."

/-- Split a character list at every dot, like the regex-forced
decomposition of `%d.%m.%Y` data strings. -/
def splitDots : List Char → List (List Char)
  | [] => [[]]
  | c :: t =>
    if c = '.' then [] :: splitDots t
    else
      match splitDots t with
      | h :: t2 => (c :: h) :: t2
      | [] => [[c]]

/-- CPython `_strptime` day pattern `3[01]|[12]\d|0[1-9]|[1-9]`
(full match of the field). -/
def dayFieldOk : List Char → Bool
  | [c] => '1' ≤ c && c ≤ '9'
  | [c1, c2] =>
    (c1 = '3' && (c2 = '0' || c2 = '1')) ||
    ((c1 = '1' || c1 = '2') && c2.isDigit) ||
    (c1 = '0' && ('1' ≤ c2 && c2 ≤ '9'))
  | _ => false

/-- CPython `_strptime` month pattern `1[0-2]|0[1-9]|[1-9]`. -/
def monthFieldOk : List Char → Bool
  | [c] => '1' ≤ c && c ≤ '9'
  | [c1, c2] =>
    (c1 = '1' && (c2 = '0' || c2 = '1' || c2 = '2')) ||
    (c1 = '0' && ('1' ≤ c2 && c2 ≤ '9'))
  | _ => false

/-- CPython `_strptime` year pattern `\d\d\d\d`: exactly four digits. -/
def yearFieldOk (l : List Char) : Bool :=
  l.length = 4 && l.all Char.isDigit

/-- Numeric value of a digit string. -/
def digitsToNat (l : List Char) : Nat :=
  l.foldl (fun n c => n * 10 + (c.toNat - 48)) 0

/-- Gregorian leap-year rule, as used by Python `datetime`. -/
def isLeap (y : Nat) : Bool :=
  y % 4 = 0 && (y % 100 ≠ 0 || y % 400 = 0)

/-- Length of a month, as checked by the `datetime` constructor. -/
def daysInMonth (y m : Nat) : Nat :=
  if m = 2 then (if isLeap y then 29 else 28)
  else if m = 4 ∨ m = 6 ∨ m = 9 ∨ m = 11 then 30
  else 31

/-- Validity check performed by the `datetime.datetime` constructor on
the parsed components (MINYEAR = 1, MAXYEAR = 9999). -/
def datetimeOk (y m d : Nat) : Bool :=
  1 ≤ y && y ≤ 9999 && 1 ≤ m && m ≤ 12 && 1 ≤ d && d ≤ daysInMonth y m

/-- `datetime.strptime(value, '%d.%m.%Y')`: CPython compiles the format
to the regex `(day)\.(month)\.(year)` and requires it to consume the whole
string; since the field patterns contain no dot, the string must split at
dots into exactly three fields matching the day/month/year patterns, after
which the `datetime` constructor validates the calendar date.  Returns the
parsed `(day, month, year)` on success. -/
def strptimeDMY (s : String) : Option (Nat × Nat × Nat) :=
  match splitDots s.toList with
  | [df, mf, yf] =>
    if dayFieldOk df && monthFieldOk mf && yearFieldOk yf then
      if datetimeOk (digitsToNat yf) (digitsToNat mf) (digitsToNat df) then
        some (digitsToNat df, digitsToNat mf, digitsToNat yf)
      else none
    else none
  | _ => none

/-- `Birthday.__init__` (train_main.py lines 26-32). -/
def BirthdayInit (value : String) : Except String String :=
  match strptimeDMY value with
  | some _ => .ok value
  | none => .error "Invalid birthday format. It should be in DD.MM.YYYY format."

/-- A `Record` (train_main.py lines 33-41): one contact.  A `Phone` object
is represented by its validated string; `email`/`address`/`birthday` hold
the wrapped string of the corresponding `Field` when set; `notes` is the
raw string or `None`; `tags` is the list of raw tag strings. -/
structure Record where
  name : String
  phones : List String
  email : Option String
  address : Option String
  birthday : Option String
  notes : Option String
  tags : List String
deriving DecidableEq, Repr

/-- `Record.__init__`: created with a name and no other fields. -/
def recordNew (name : String) : Record :=
  { name := name, phones := [], email := none, address := none,
    birthday := none, notes := none, tags := [] }

/-- `Record.remove_phone` (lines 64-65):
`self.phones = [p for p in self.phones if str(p) != phone]`.  The `phone`
argument is whatever Python value the caller passed (a `str` from most
call sites, a `Phone` object from `change_contact_command`). -/
def remove_phone (phones : List String) (phone : PyVal) : List String :=
  phones.filter (fun p => !pyValEq (.str p) phone)

/-- `Record.remove_tag` (lines 82-84):
`if tag in self.tags: self.tags.remove(tag)` — `list.remove` deletes the
first occurrence. -/
def remove_tag (tags : List String) (tag : String) : List String :=
  if tag ∈ tags then tags.erase tag else tags

/-- `Record.show_notes` (lines 74-75). -/
def show_notes (r : Record) : String :=
  match r.notes with
  | some n => if n = "" then "No notes" else n
  | none => "No notes"

/-- `Record.show_tags` (lines 62-63). -/
def show_tags (r : Record) : String :=
  if r.tags = [] then "No tags" else String.intercalate ", " r.tags

/-- `Record.__str__` (lines 87-94). -/
def recordStr (r : Record) : String :=
  "Contact name: " ++ r.name ++
  ", phones: " ++ String.intercalate "; " r.phones ++
  ", email: " ++ (r.email.getD "Not specified") ++
  ", address: " ++ (r.address.getD "Not specified") ++
  ", birthday: " ++ (r.birthday.getD "Not specified") ++
  ", notes: " ++ show_notes r ++
  ", tags: " ++ show_tags r

/-- The address book's `data` dict: a Python `dict` keyed by contact name,
modelled as an insertion-ordered association list with unique keys. -/
structure AddressBook where
  data : List (String × Record)
deriving DecidableEq, Repr

/-- `dict.get(k)`: first (only) entry with key `k`. -/
def dictGet {α : Type} (d : List (String × α)) (k : String) : Option α :=
  (d.find? (fun p => p.1 = k)).map (·.2)

/-- `d[k] = v`: replace the value at `k` in place when the key exists
(keeping its position), otherwise append the new entry. -/
def dictSet {α : Type} (d : List (String × α)) (k : String) (v : α) :
    List (String × α) :=
  if d.any (fun p => p.1 = k) then
    d.map (fun p => if p.1 = k then (k, v) else p)
  else
    d ++ [(k, v)]

/-- `del d[k]` / `d.pop(k)` (the removal part). -/
def dictPop {α : Type} (d : List (String × α)) (k : String) :
    List (String × α) :=
  d.filter (fun p => p.1 ≠ k)

/-- `AddressBook.add_record` (lines 98-99). -/
def add_record (b : AddressBook) (r : Record) : AddressBook :=
  ⟨dictSet b.data r.name r⟩

/-- `AddressBook.find` (lines 100-101). -/
def find (b : AddressBook) (name : String) : Option Record :=
  dictGet b.data name

/-- `AddressBook.find_by_phone` (lines 103-107). -/
def find_by_phone (b : AddressBook) (phone : String) : Option Record :=
  (b.data.find? (fun p => p.2.phones.any (fun q => q = phone))).map (·.2)

/-- `AddressBook.find_by_email` (lines 109-113). -/
def find_by_email (b : AddressBook) (email : String) : Option Record :=
  (b.data.find? (fun p => p.2.email = some email)).map (·.2)

/-- `AddressBook.search_by_tag` (lines 157-159). -/
def search_by_tag (b : AddressBook) (tag : String) : List Record :=
  (b.data.map (·.2)).filter (fun r => tag ∈ r.tags)

/-- `AddressBook.sort_by_tags` (lines 160-162): Python `sorted` with a
Boolean key is a stable partition — records without the tag first, then
records with it, each group in store order. -/
def sort_by_tags (b : AddressBook) (tag : String) : List Record :=
  (b.data.map (·.2)).filter (fun r => tag ∉ r.tags) ++
  (b.data.map (·.2)).filter (fun r => tag ∈ r.tags)

/-- Instant of midnight of a proleptic-Gregorian date, in seconds
(days counted from 01.01.0001), mirroring `datetime` ordering. -/
def dmyToSeconds (d m y : Nat) : Nat :=
  let monthDays := (List.range (m - 1)).foldl (fun acc i => acc + daysInMonth y (i + 1)) 0
  ((y - 1) * 365 + ((y - 1) / 4 - (y - 1) / 100 + (y - 1) / 400) + monthDays + (d - 1)) * 86400

/-- `AddressBook.get_birthdays_per_week` (lines 138-147).  `now` is the
current instant in seconds (`datetime.now()`).  Re-parsing a stored
birthday can raise `ValueError` (possible only for data loaded from a
file that was not produced by this program); that propagates to the
decorated caller, modelled as `.error`.  The two CPython error texts
(format mismatch vs. out-of-range component) are collapsed into one
modelled message, which no command compares against. -/
def get_birthdays_per_week (b : AddressBook) (now : Nat) :
    Except String (List String) :=
  b.data.foldl
    (fun acc entry =>
      match acc with
      | .error e => .error e
      | .ok names =>
        match entry.2.birthday with
        | none => .ok names
        | some bs =>
          match strptimeDMY bs with
          | none => .error ("time data \x27" ++ bs ++ "\x27 does not match format \x27%d.%m.%Y\x27")
          | some (d, m, y) =>
            if now ≤ dmyToSeconds d m y ∧ dmyToSeconds d m y < now + 7 * 86400 then
              .ok (names ++ [entry.2.name])
            else .ok names)
    (.ok [])

/-- CPython's `ValueError` message for a failed tuple-unpacking
`a, b = args` (raised when `args` has the wrong number of elements and
caught by the `input_error` decorator, which returns `str(e)`). -/
def unpackMsg (expected got : Nat) : String :=
  if got < expected then
    "not enough values to unpack (expected " ++ toString expected ++
      ", got " ++ toString got ++ ")"
  else
    "too many values to unpack (expected " ++ toString expected ++ ")"

/-- `add_contact_command` (lines 174-180), with the `input_error`
decorator applied: the handler returns the message together with the
(possibly mutated) book. -/
def add_contact_command (args : List String) (book : AddressBook) :
    String × AddressBook :=
  match args with
  | [name, phone] =>
    match PhoneInit phone with
    | .ok p =>
      ("Contact added.", add_record book { recordNew name with phones := [p] })
    | .error m => (m, book)
  | _ => (unpackMsg 2 args.length, book)

/-- `change_contact_command` (lines 181-189).  Note the source passes the
`Phone` OBJECT `record.phones[0]` (not its string) to `edit_phone`, so the
`remove_phone` filter `str(p) != phone` never fires; the mutation through
`record` is visible in the book at key `name`.  An empty phone list makes
`record.phones[0]` raise `IndexError`, mapped by the decorator. -/
def change_contact_command (args : List String) (book : AddressBook) :
    String × AddressBook :=
  match args with
  | [name, phone] =>
    match find book name with
    | some r =>
      match r.phones with
      | [] => ("Invalid command or missing argument.", book)
      | p0 :: _ =>
        let phones1 := remove_phone r.phones (.phoneObj p0)
        match PhoneInit phone with
        | .error m => (m, ⟨dictSet book.data name { r with phones := phones1 }⟩)
        | .ok pnew =>
          ("Contact updated.",
            ⟨dictSet book.data name { r with phones := phones1 ++ [pnew] }⟩)
    | none => ("Contact not found.", book)
  | _ => (unpackMsg 2 args.length, book)

/-- `delete_contact_command` (lines 190-194); `args[0]` on an empty list
raises `IndexError`, mapped by the decorator. -/
def delete_contact_command (args : List String) (book : AddressBook) :
    String × AddressBook :=
  match args with
  | [] => ("Invalid command or missing argument.", book)
  | name :: _ =>
    ("Contact \x27" ++ name ++ "\x27 deleted.", ⟨dictPop book.data name⟩)

/-- `delete_email_command` (lines 195-199) via `AddressBook.delete_email`
(lines 118-121). -/
def delete_email_command (args : List String) (book : AddressBook) :
    String × AddressBook :=
  match args with
  | [] => ("Invalid command or missing argument.", book)
  | name :: _ =>
    let data1 :=
      match dictGet book.data name with
      | some r =>
        if r.email.isSome then dictSet book.data name { r with email := none }
        else book.data
      | none => book.data
    ("Email for contact \x27" ++ name ++ "\x27 deleted.", ⟨data1⟩)

/-- `delete_address_command` (lines 200-204) via
`AddressBook.delete_address` (lines 122-125). -/
def delete_address_command (args : List String) (book : AddressBook) :
    String × AddressBook :=
  match args with
  | [] => ("Invalid command or missing argument.", book)
  | name :: _ =>
    let data1 :=
      match dictGet book.data name with
      | some r =>
        if r.address.isSome then dictSet book.data name { r with address := none }
        else book.data
      | none => book.data
    ("Address for contact \x27" ++ name ++ "\x27 deleted.", ⟨data1⟩)

/-- `delete_phone_command` (lines 205-209) via `AddressBook.delete_phone`
(lines 126-129); here `remove_phone` is called with a plain string. -/
def delete_phone_command (args : List String) (book : AddressBook) :
    String × AddressBook :=
  match args with
  | [name, phone] =>
    let data1 :=
      match dictGet book.data name with
      | some r =>
        if phone ∈ r.phones then
          dictSet book.data name { r with phones := remove_phone r.phones (.str phone) }
        else book.data
      | none => book.data
    ("Phone number \x27" ++ phone ++ "\x27 for contact \x27" ++ name ++
      "\x27 deleted.", ⟨data1⟩)
  | _ => (unpackMsg 2 args.length, book)

/-- `delete_birthday_command` (lines 210-214) via
`AddressBook.delete_birthday` (lines 130-133). -/
def delete_birthday_command (args : List String) (book : AddressBook) :
    String × AddressBook :=
  match args with
  | [] => ("Invalid command or missing argument.", book)
  | name :: _ =>
    let data1 :=
      match dictGet book.data name with
      | some r =>
        if r.birthday.isSome then dictSet book.data name { r with birthday := none }
        else book.data
      | none => book.data
    ("Birthday for contact \x27" ++ name ++ "\x27 deleted.", ⟨data1⟩)

/-- `delete_all_tags_command` (lines 215-219) via
`AddressBook.delete_all_tags` (lines 134-137). -/
def delete_all_tags_command (args : List String) (book : AddressBook) :
    String × AddressBook :=
  match args with
  | [] => ("Invalid command or missing argument.", book)
  | name :: _ =>
    let data1 :=
      match dictGet book.data name with
      | some r => dictSet book.data name { r with tags := [] }
      | none => book.data
    ("All tags for contact \x27" ++ name ++ "\x27 deleted.", ⟨data1⟩)

/-- `change_name_command` (lines 233-242): mutate the record's name in
place (visible through the entry at the old key), then
`book.data[new_name] = book.data.pop(old_name)`. -/
def change_name_command (args : List String) (book : AddressBook) :
    String × AddressBook :=
  match args with
  | [old_name, new_name] =>
    match find book old_name with
    | some r =>
      let r1 := { r with name := new_name }
      let data1 := dictSet book.data old_name r1
      ("Name updated.", ⟨dictSet (dictPop data1 old_name) new_name r1⟩)
    | none => ("Contact not found.", book)
  | _ => (unpackMsg 2 args.length, book)

/-- `search_by_tag_command` (lines 269-276). -/
def search_by_tag_command (args : List String) (book : AddressBook) :
    String × AddressBook :=
  match args with
  | [] => ("Invalid command or missing argument.", book)
  | tag :: _ =>
    let matching := search_by_tag book tag
    if matching = [] then ("No contacts found with the specified tag.", book)
    else (String.intercalate "\n" (matching.map recordStr), book)

/-- `sort_by_tags_command` (lines 277-284). -/
def sort_by_tags_command (args : List String) (book : AddressBook) :
    String × AddressBook :=
  match args with
  | [] => ("Invalid command or missing argument.", book)
  | tag :: _ =>
    let sortedRecords := sort_by_tags book tag
    if sortedRecords = [] then ("No contacts found with the specified tag.", book)
    else (String.intercalate "\n" (sortedRecords.map recordStr), book)

/-- `show_phone_command` (lines 285-292). -/
def show_phone_command (args : List String) (book : AddressBook) :
    String × AddressBook :=
  match args with
  | [] => ("Invalid command or missing argument.", book)
  | name :: _ =>
    match find book name with
    | some r =>
      match r.phones with
      | p0 :: _ => (name ++ "\x27s phone: " ++ p0, book)
      | [] => ("Contact not found or phone not specified.", book)
    | none => ("Contact not found or phone not specified.", book)

/-- `show_all_command` (lines 293-312): prints a table to the console
and returns `None` (which `main` then prints). -/
def show_all_command (args : List String) (book : AddressBook) :
    String × AddressBook :=
  let _ := args
  ("None", book)

/-- `add_birthday_command` (lines 313-321). -/
def add_birthday_command (args : List String) (book : AddressBook) :
    String × AddressBook :=
  match args with
  | [name, birthday] =>
    match find book name with
    | some r =>
      match BirthdayInit birthday with
      | .ok bd =>
        ("Birthday added.", ⟨dictSet book.data name { r with birthday := some bd }⟩)
      | .error m => (m, book)
    | none => ("Contact not found.", book)
  | _ => (unpackMsg 2 args.length, book)

/-- `show_birthday_command` (lines 322-329). -/
def show_birthday_command (args : List String) (book : AddressBook) :
    String × AddressBook :=
  match args with
  | [] => ("Invalid command or missing argument.", book)
  | name :: _ =>
    match find book name with
    | some r =>
      match r.birthday with
      | some bd => (name ++ "\x27s birthday: " ++ bd, book)
      | none => ("Contact not found or birthday not specified.", book)
    | none => ("Contact not found or birthday not specified.", book)

/-- `birthdays_command` (lines 330-336); `now` stands for
`datetime.now()` inside `get_birthdays_per_week`. -/
def birthdays_command (now : Nat) (args : List String) (book : AddressBook) :
    String × AddressBook :=
  let _ := args
  match get_birthdays_per_week book now with
  | .error e => (e, book)
  | .ok [] => ("No upcoming birthdays.", book)
  | .ok names =>
    ("Upcoming birthdays: " ++ String.intercalate ", " names, book)

/-- `show_notes_command` (lines 337-344); note `if record and
record.notes:` treats empty notes as absent (falsy). -/
def show_notes_command (args : List String) (book : AddressBook) :
    String × AddressBook :=
  match args with
  | [] => ("Invalid command or missing argument.", book)
  | name :: _ =>
    match find book name with
    | some r =>
      match r.notes with
      | some n =>
        if n = "" then ("Contact not found or notes not specified.", book)
        else (name ++ "\x27s notes: " ++ show_notes r, book)
      | none => ("Contact not found or notes not specified.", book)
    | none => ("Contact not found or notes not specified.", book)

/-- `add_notes_command` (lines 345-353). -/
def add_notes_command (args : List String) (book : AddressBook) :
    String × AddressBook :=
  match args with
  | [name, notes] =>
    match find book name with
    | some r =>
      ("Notes added.", ⟨dictSet book.data name { r with notes := some notes }⟩)
    | none => ("Contact not found.", book)
  | _ => (unpackMsg 2 args.length, book)

/-- `add_tag_command` (lines 354-362). -/
def add_tag_command (args : List String) (book : AddressBook) :
    String × AddressBook :=
  match args with
  | [name, tag] =>
    match find book name with
    | some r =>
      ("Tag added.", ⟨dictSet book.data name { r with tags := r.tags ++ [tag] }⟩)
    | none => ("Contact not found.", book)
  | _ => (unpackMsg 2 args.length, book)

/-- `show_tags_command` (lines 364-371). -/
def show_tags_command (args : List String) (book : AddressBook) :
    String × AddressBook :=
  match args with
  | [] => ("Invalid command or missing argument.", book)
  | name :: _ =>
    match find book name with
    | some r =>
      if r.tags = [] then ("Contact not found or tags not specified.", book)
      else (name ++ "\x27s tags: " ++ show_tags r, book)
    | none => ("Contact not found or tags not specified.", book)

/-- A token of the serialized form.  Models `pickle`: the pickled byte
stream of the plain `data` dict is abstracted as a token list via a
concrete injective encoding; `pickle.dump`/`pickle.load` round-trip such
plain data objects exactly. -/
inductive Tok : Type where
  | n : Nat → Tok
  | s : String → Tok
deriving DecidableEq, Repr

/-- Encode an optional string field. -/
def encOpt : Option String → List Tok
  | none => [.n 0]
  | some v => [.n 1, .s v]

/-- Encode a list of strings, length-prefixed. -/
def encListStr (xs : List String) : List Tok :=
  .n xs.length :: xs.map .s

/-- Encode one `Record`, field after field. -/
def encRecord (r : Record) : List Tok :=
  .s r.name :: (encListStr r.phones ++ encOpt r.email ++ encOpt r.address ++
    encOpt r.birthday ++ encOpt r.notes ++ encListStr r.tags)

/-- `pickle.dump(self.data, file)`: serialize the whole mapping. -/
def pickleDump (d : List (String × Record)) : List Tok :=
  .n d.length :: d.flatMap (fun e => .s e.1 :: encRecord e.2)

/-- Decode one string token. -/
def decStr : List Tok → Option (String × List Tok)
  | .s v :: t => some (v, t)
  | _ => none

/-- Decode `k` string tokens. -/
def decStrs : Nat → List Tok → Option (List String × List Tok)
  | 0, t => some ([], t)
  | k + 1, .s v :: t =>
    match decStrs k t with
    | some (vs, t2) => some (v :: vs, t2)
    | none => none
  | _ + 1, _ => none

/-- Decode a length-prefixed string list. -/
def decListStr : List Tok → Option (List String × List Tok)
  | .n k :: t => decStrs k t
  | _ => none

/-- Decode an optional string field. -/
def decOpt : List Tok → Option (Option String × List Tok)
  | .n 0 :: t => some (none, t)
  | .n 1 :: .s v :: t => some (some v, t)
  | _ => none

/-- Decode one `Record`. -/
def decRecord (t : List Tok) : Option (Record × List Tok) :=
  match decStr t with
  | none => none
  | some (name, t1) =>
    match decListStr t1 with
    | none => none
    | some (phones, t2) =>
      match decOpt t2 with
      | none => none
      | some (email, t3) =>
        match decOpt t3 with
        | none => none
        | some (address, t4) =>
          match decOpt t4 with
          | none => none
          | some (birthday, t5) =>
            match decOpt t5 with
            | none => none
            | some (notes, t6) =>
              match decListStr t6 with
              | none => none
              | some (tags, t7) =>
                some ({ name := name, phones := phones, email := email,
                        address := address, birthday := birthday,
                        notes := notes, tags := tags }, t7)

/-- Decode `k` dictionary entries. -/
def decEntries : Nat → List Tok → Option (List (String × Record) × List Tok)
  | 0, t => some ([], t)
  | k + 1, t =>
    match decStr t with
    | none => none
    | some (key, t1) =>
      match decRecord t1 with
      | none => none
      | some (r, t2) =>
        match decEntries k t2 with
        | some (es, t3) => some ((key, r) :: es, t3)
        | none => none

/-- `pickle.load(file)`: deserialize a whole mapping; `none` models
`pickle`'s unpickling failure on a stream this program did not write. -/
def pickleLoad (t : List Tok) : Option (List (String × Record)) :=
  match t with
  | .n k :: t1 =>
    match decEntries k t1 with
    | some (es, []) => some es
    | _ => none
  | _ => none

/-- The file system visible to `save`/`load`: file name to serialized
content.  I/O failures other than file-absent are out of the model, as in
the specification they are unhandled and fatal. -/
def FileSys : Type := List (String × List Tok)

/-- `AddressBook.save_to_file` (lines 148-150): a single whole-file
write, overwriting any prior content. -/
def save_to_file (fs : FileSys) (filename : String) (b : AddressBook) :
    FileSys :=
  dictSet fs filename (pickleDump b.data)

/-- `AddressBook.load_from_file` (lines 151-156): a missing file yields
an empty store (`FileNotFoundError` handler); `none` models an uncaught
unpickling error on malformed content. -/
def load_from_file (fs : FileSys) (filename : String) : Option AddressBook :=
  match dictGet fs filename with
  | none => some ⟨[]⟩
  | some toks => (pickleLoad toks).map AddressBook.mk

/-- Helper for `pyWords`: walk the characters, accumulating the current
word (reversed). -/
def pyWordsAux : List Char → List Char → List String
  | [], acc => if acc = [] then [] else [String.mk acc.reverse]
  | c :: t, acc =>
    if c.isWhitespace then
      if acc = [] then pyWordsAux t []
      else String.mk acc.reverse :: pyWordsAux t []
    else pyWordsAux t (c :: acc)

/-- Python `str.split()` with no separator: split on whitespace runs,
discarding empty pieces. -/
def pyWords (s : String) : List String :=
  pyWordsAux s.toList []

/-- Python `str.lower()` restricted to the ASCII range of the command
tokens. -/
def pyLower (s : String) : String :=
  String.mk (s.toList.map Char.toLower)

/-- `parse_input` (lines 420-423): `cmd, *args = user_input.split()`.
`none` models the uncaught `ValueError` raised by the starred unpacking
when the line has no tokens. -/
def parse_input (line : String) : Option (String × List String) :=
  match pyWords line with
  | [] => none
  | c :: args => some (pyLower c, args)

/-- Run-time environment of one loop iteration: the current instant
(`datetime.now()`) and the reply typed at the `save`/`load` filename
prompt. -/
structure Env where
  now : Nat
  filename : String

/-- Mutable state threaded through the loop: the book and the files. -/
structure LoopState where
  book : AddressBook
  fs : FileSys

/-- Outcome of handling one input line in `main` (lines 424-493):
continue looping with a new state, leave the loop via `break`, or die on
an uncaught exception. -/
inductive StepResult : Type where
  | cont : LoopState → StepResult
  | exited : StepResult
  | crash : StepResult

/-- The `elif` dispatch chain of `main` for a parsed command. -/
def dispatch (env : Env) (st : LoopState) (cmd : String) (args : List String) :
    StepResult :=
  if cmd = "close" ∨ cmd = "exit" then .exited
  else if cmd = "help" then .cont st
  else if cmd = "hello" then .cont st
  else if cmd = "add" then .cont { st with book := (add_contact_command args st.book).2 }
  else if cmd = "change" then .cont { st with book := (change_contact_command args st.book).2 }
  else if cmd = "search-by-tag" then .cont { st with book := (search_by_tag_command args st.book).2 }
  else if cmd = "sort-by-tags" then .cont { st with book := (sort_by_tags_command args st.book).2 }
  else if cmd = "phone" then .cont { st with book := (show_phone_command args st.book).2 }
  else if cmd = "find-by-phone" then
    match args with
    | [] => .crash
    | _ :: _ => .cont st
  else if cmd = "find-by-email" then
    match args with
    | [] => .crash
    | _ :: _ => .cont st
  else if cmd = "all" then .cont { st with book := (show_all_command args st.book).2 }
  else if cmd = "add-birthday" then .cont { st with book := (add_birthday_command args st.book).2 }
  else if cmd = "show-birthday" then .cont { st with book := (show_birthday_command args st.book).2 }
  else if cmd = "birthdays" then .cont { st with book := (birthdays_command env.now args st.book).2 }
  else if cmd = "notes" then .cont { st with book := (show_notes_command args st.book).2 }
  else if cmd = "add-notes" then .cont { st with book := (add_notes_command args st.book).2 }
  else if cmd = "add-tag" then .cont { st with book := (add_tag_command args st.book).2 }
  else if cmd = "show-tags" then .cont { st with book := (show_tags_command args st.book).2 }
  else if cmd = "delete-contact" then .cont { st with book := (delete_contact_command args st.book).2 }
  else if cmd = "delete-email" then .cont { st with book := (delete_email_command args st.book).2 }
  else if cmd = "delete-address" then .cont { st with book := (delete_address_command args st.book).2 }
  else if cmd = "delete-phone" then .cont { st with book := (delete_phone_command args st.book).2 }
  else if cmd = "delete-birthday" then .cont { st with book := (delete_birthday_command args st.book).2 }
  else if cmd = "delete-all-tags" then .cont { st with book := (delete_all_tags_command args st.book).2 }
  else if cmd = "save" then .cont { st with fs := save_to_file st.fs env.filename st.book }
  else if cmd = "load" then
    match load_from_file st.fs env.filename with
    | some b => .cont { st with book := b }
    | none => .crash
  else .cont st

/-- One iteration of the `while True` loop in `main`. -/
def mainStep (env : Env) (st : LoopState) (line : String) : StepResult :=
  match parse_input line with
  | none => .crash
  | some (cmd, args) => dispatch env st cmd args

/-- The file named at the prompt is either absent or holds well-formed
serialized content, so `load` cannot raise. -/
def loadOk (fs : FileSys) (filename : String) : Bool :=
  match dictGet fs filename with
  | none => true
  | some toks => (pickleLoad toks).isSome

/-- The store invariant: every entry's key equals its record's name. -/
def bookInv (b : AddressBook) : Prop :=
  ∀ p ∈ b.data, p.1 = p.2.name

/-- The dict's keys are pairwise distinct (a Python `dict` guarantees
this by construction). -/
def keysNodup (b : AddressBook) : Prop :=
  (b.data.map Prod.fst).Nodup

/-- The exact set of strings the email regex accepts: a nonempty `@`-free
local part, `@`, a nonempty `@`-free run, a dot, one further non-`@`
character — and then anything at all (the match is only anchored at the
start). -/
def emailShape (l : List Char) : Prop :=
  ∃ a b c r, l = a ++ '@' :: (b ++ '.' :: c :: r) ∧
    a ≠ [] ∧ '@' ∉ a ∧ b ≠ [] ∧ '@' ∉ b ∧ c ≠ '@'

/-- The exact set of strings `Birthday` accepts: day, month and year
fields separated by dots, day and month of one or two digits, year of
exactly four digits, the values forming a valid calendar date. -/
def birthdayShape (s : String) : Prop :=
  ∃ df mf yf : List Char,
    s.toList = df ++ '.' :: (mf ++ '.' :: yf) ∧
    (∀ c ∈ df, c.isDigit = true) ∧
    (∀ c ∈ mf, c.isDigit = true) ∧
    (∀ c ∈ yf, c.isDigit = true) ∧
    1 ≤ df.length ∧ df.length ≤ 2 ∧
    1 ≤ mf.length ∧ mf.length ≤ 2 ∧
    yf.length = 4 ∧
    datetimeOk (digitsToNat yf) (digitsToNat mf) (digitsToNat df) = true

/-- A record for John with the single phone 1234567890. -/
def johnRecord : Record :=
  { recordNew "John" with phones := ["1234567890"] }

/-- A book holding only John. -/
def johnBook : AddressBook :=
  ⟨[("John", johnRecord)]⟩

/-- Rejoin dot-separated fields; the left inverse of `splitDots`. -/
def joinDots : List (List Char) → List Char
  | [] => []
  | [a] => a
  | a :: rest => a ++ '.' :: joinDots rest

/-- A fixed loop environment for concrete evaluations. -/
def env0 : Env := { now := 0, filename := "book.pkl" }

/-- An initial loop state: empty book, empty file system. -/
def st0 : LoopState := { book := ⟨[]⟩, fs := ([] : FileSys) }

/-- C1: The Phone constructor accepts a text input if and only if the
input is exactly 10 characters long and every character is a decimal
digit; every other input fails with the validation error. -/
theorem c1_phone_accepts_iff (s : String) :
    (PhoneInit s = .ok s ↔
      (s.length = 10 ∧ ∀ c ∈ s.toList, c.isDigit = true)) ∧
    (PhoneInit s = .ok s ∨
      PhoneInit s = .error "Invalid phone number format. It should contain 10 digits.") := by
  constructor
  · unfold PhoneInit
    split
    · rename_i h
      constructor
      · intro hx; exact absurd hx (by simp)
      · rintro ⟨hlen, hdig⟩
        exfalso
        rcases h with h | h
        · unfold pyStrIsDigit at h
          have hne : s.isEmpty = false := by
            rcases he : s.isEmpty with _ | _
            · rfl
            · exfalso
              have hs : s = "" := (String.isEmpty_iff s).mp he
              rw [hs] at hlen
              simp at hlen
          simp [hne, List.all_eq_true] at h
          obtain ⟨c, hc, hcd⟩ := h
          rw [hdig c hc] at hcd
          cases hcd
        · exact h hlen
    · rename_i h
      push_neg at h
      obtain ⟨hdig, hlen⟩ := h
      constructor
      · intro _
        refine ⟨hlen, ?_⟩
        intro c hc
        have : pyStrIsDigit s = true := by
          rcases hx : pyStrIsDigit s with _ | _
          · exact absurd hx hdig
          · rfl
        unfold pyStrIsDigit at this
        simp [List.all_eq_true] at this
        exact this.2 c hc
      · intro _; rfl
  · unfold PhoneInit
    split
    · right; rfl
    · left; rfl

/-- C2 (evaluation at the failing input): with John holding one phone
1234567890, the `change` handler reports success but leaves the old
first phone in place and appends the new one, because `remove_phone`
compares strings against the passed `Phone` object. -/
theorem c2_change_keeps_old_first_phone :
    (change_contact_command ["John", "0987654321"] johnBook).1 = "Contact updated." ∧
    (find (change_contact_command ["John", "0987654321"] johnBook).2 "John").map
        Record.phones = some ["1234567890", "0987654321"] := by
  constructor
  · rfl
  · rfl

/-- C3 (counterexample): a tuple-unpacking handler given too few tokens
returns CPython's unpacking message, not
"Invalid command or missing argument.". -/
theorem c3_counterexample :
    add_contact_command ["John"] ⟨[]⟩ =
      ("not enough values to unpack (expected 2, got 1)", (⟨[]⟩ : AddressBook)) ∧
    "not enough values to unpack (expected 2, got 1)" ≠
      "Invalid command or missing argument." := by
  exact ⟨rfl, by decide⟩

/-- C3 (amended): handlers that index into `args` return
"Invalid command or missing argument." when tokens are missing, while
handlers that unpack a fixed tuple of arguments return CPython's
`ValueError` unpacking message instead. -/
theorem c3_amended (book : AddressBook) (name : String) :
    show_phone_command [] book = ("Invalid command or missing argument.", book) ∧
    delete_contact_command [] book = ("Invalid command or missing argument.", book) ∧
    show_birthday_command [] book = ("Invalid command or missing argument.", book) ∧
    show_tags_command [] book = ("Invalid command or missing argument.", book) ∧
    show_notes_command [] book = ("Invalid command or missing argument.", book) ∧
    delete_email_command [] book = ("Invalid command or missing argument.", book) ∧
    delete_address_command [] book = ("Invalid command or missing argument.", book) ∧
    delete_birthday_command [] book = ("Invalid command or missing argument.", book) ∧
    delete_all_tags_command [] book = ("Invalid command or missing argument.", book) ∧
    search_by_tag_command [] book = ("Invalid command or missing argument.", book) ∧
    sort_by_tags_command [] book = ("Invalid command or missing argument.", book) ∧
    add_contact_command [] book =
      ("not enough values to unpack (expected 2, got 0)", book) ∧
    add_contact_command [name] book =
      ("not enough values to unpack (expected 2, got 1)", book) ∧
    change_contact_command [name] book =
      ("not enough values to unpack (expected 2, got 1)", book) ∧
    delete_phone_command [name] book =
      ("not enough values to unpack (expected 2, got 1)", book) ∧
    add_birthday_command [name] book =
      ("not enough values to unpack (expected 2, got 1)", book) ∧
    add_notes_command [name] book =
      ("not enough values to unpack (expected 2, got 1)", book) ∧
    add_tag_command [name] book =
      ("not enough values to unpack (expected 2, got 1)", book) ∧
    change_name_command [name] book =
      ("not enough values to unpack (expected 2, got 1)", book) := by
  refine ⟨rfl, rfl, rfl, rfl, rfl, rfl, rfl, rfl, rfl, rfl, rfl,
    ?_, ?_, ?_, ?_, ?_, ?_, ?_, ?_⟩
  · show (unpackMsg 2 0, book) = _
    rfl
  all_goals
    show (unpackMsg 2 1, book) = _
    rfl

/-- C4: an `add` whose phone fails validation returns the 10-digit
format message and leaves the store exactly as it was. -/
theorem c4_add_invalid_phone_atomic (book : AddressBook) (name phone e : String)
    (h : PhoneInit phone = .error e) :
    add_contact_command [name, phone] book =
      ("Invalid phone number format. It should contain 10 digits.", book) := by
  have he : e = "Invalid phone number format. It should contain 10 digits." := by
    unfold PhoneInit at h
    split at h
    · cases h; rfl
    · cases h
  subst he
  simp only [add_contact_command, h]

/-- Witness for C4 at the specification's own scenario `add Jane 12x`. -/
theorem c4_add_invalid_phone_atomic_witness :
    PhoneInit "12x" =
      .error "Invalid phone number format. It should contain 10 digits." ∧
    add_contact_command ["Jane", "12x"] ⟨[]⟩ =
      ("Invalid phone number format. It should contain 10 digits.",
        (⟨[]⟩ : AddressBook)) :=
  ⟨by rfl,
    c4_add_invalid_phone_atomic ⟨[]⟩ "Jane" "12x"
      "Invalid phone number format. It should contain 10 digits." (by rfl)⟩

/-- C10: `remove_tag` is total; when the tag is absent it is a no-op,
when present it removes exactly the first occurrence, keeping the order
of the remaining tags. -/
theorem c10_remove_tag (tags : List String) (tag : String) :
    (tag ∉ tags → remove_tag tags tag = tags) ∧
    (tag ∈ tags → ∃ l₁ l₂, tag ∉ l₁ ∧ tags = l₁ ++ tag :: l₂ ∧
      remove_tag tags tag = l₁ ++ l₂) := by
  constructor
  · intro h
    simp [remove_tag, h]
  · intro h
    rw [remove_tag, if_pos h]
    exact List.exists_erase_eq h

/-- Witness for C10: both branches exercised on concrete tag lists. -/
theorem c10_remove_tag_witness :
    remove_tag ["x"] "z" = ["x"] ∧
    (∃ l₁ l₂, "y" ∉ l₁ ∧ ["x", "y"] = l₁ ++ "y" :: l₂ ∧
      remove_tag ["x", "y"] "y" = l₁ ++ l₂) :=
  ⟨(c10_remove_tag ["x"] "z").1 (by decide),
    (c10_remove_tag ["x", "y"] "y").2 (by decide)⟩

theorem dictGet_dictSet_self {α : Type} (d : List (String × α)) (k : String)
    (v : α) : dictGet (dictSet d k v) k = some v := by
  unfold dictGet dictSet
  by_cases h : d.any (fun p => p.1 = k)
  · rw [if_pos h]
    induction d with
    | nil => simp at h
    | cons a t ih =>
      by_cases ha : a.1 = k
      · rw [List.map_cons, if_pos ha]
        rw [List.find?_cons_of_pos _ (by simp)]
        rfl
      · rw [List.map_cons, if_neg ha]
        rw [List.find?_cons_of_neg _ (by simp [ha])]
        apply ih
        simp only [List.any_cons, Bool.or_eq_true, decide_eq_true_eq] at h
        rcases h with h | h
        · exact absurd h ha
        · exact List.any_eq_true.mpr (by simpa using h)
  · rw [if_neg h]
    have hnone : d.find? (fun p => decide (p.1 = k)) = none := by
      rw [List.find?_eq_none]
      intro p hp hpk
      simp only [decide_eq_true_eq] at hpk
      exact h (List.any_eq_true.mpr ⟨p, hp, by simp [hpk]⟩)
    rw [List.find?_append, hnone]
    simp

theorem dictGet_dictSet_ne {α : Type} (d : List (String × α)) (k kx : String)
    (v : α) (hne : kx ≠ k) : dictGet (dictSet d k v) kx = dictGet d kx := by
  unfold dictGet dictSet
  by_cases h : d.any (fun p => p.1 = k)
  · rw [if_pos h]
    clear h
    congr 1
    induction d with
    | nil => rfl
    | cons a t ih =>
      rw [List.map_cons]
      by_cases ha : a.1 = k
      · rw [if_pos ha]
        rw [List.find?_cons_of_neg _ (by simp [Ne.symm hne]),
          List.find?_cons_of_neg _ (by simp [ha, Ne.symm hne])]
        exact ih
      · rw [if_neg ha]
        by_cases hax : a.1 = kx
        · rw [List.find?_cons_of_pos _ (by simp [hax]),
            List.find?_cons_of_pos _ (by simp [hax])]
        · rw [List.find?_cons_of_neg _ (by simp [hax]),
            List.find?_cons_of_neg _ (by simp [hax])]
          exact ih
  · rw [if_neg h]
    rw [List.find?_append]
    have hlast : List.find? (fun p => decide (p.1 = kx)) [(k, v)] = none := by
      simp [Ne.symm hne]
    rw [hlast]
    cases List.find? (fun p => decide (p.1 = kx)) d <;> rfl

theorem dictGet_dictPop_self {α : Type} (d : List (String × α)) (k : String) :
    dictGet (dictPop d k) k = none := by
  unfold dictGet dictPop
  have hnone : List.find? (fun p => decide (p.1 = k))
      (List.filter (fun p => decide (p.1 ≠ k)) d) = none := by
    rw [List.find?_eq_none]
    intro p hp
    have := (List.mem_filter.mp hp).2
    simpa using this
  rw [hnone]
  rfl

theorem dictGet_dictPop_ne {α : Type} (d : List (String × α)) (k kx : String)
    (hne : kx ≠ k) : dictGet (dictPop d k) kx = dictGet d kx := by
  unfold dictGet dictPop
  congr 1
  induction d with
  | nil => rfl
  | cons a t ih =>
    by_cases ha : a.1 = k
    · rw [List.filter_cons_of_neg (by simp [ha])]
      rw [List.find?_cons_of_neg _ (by simp [ha]; exact Ne.symm hne)]
      exact ih
    · rw [List.filter_cons_of_pos (by simp [ha])]
      by_cases hax : a.1 = kx
      · rw [List.find?_cons_of_pos _ (by simp [hax]),
          List.find?_cons_of_pos _ (by simp [hax])]
      · rw [List.find?_cons_of_neg _ (by simp [hax]),
          List.find?_cons_of_neg _ (by simp [hax])]
        exact ih

theorem mem_dictSet {α : Type} {d : List (String × α)} {k : String} {v : α}
    {p : String × α} (hp : p ∈ dictSet d k v) :
    p = (k, v) ∨ (p ∈ d ∧ p.1 ≠ k) := by
  unfold dictSet at hp
  by_cases h : d.any (fun q => q.1 = k)
  · rw [if_pos h] at hp
    obtain ⟨q, hq, hqe⟩ := List.mem_map.mp hp
    by_cases hk : q.1 = k
    · rw [if_pos hk] at hqe
      exact Or.inl hqe.symm
    · rw [if_neg hk] at hqe
      exact Or.inr ⟨hqe ▸ hq, hqe ▸ hk⟩
  · rw [if_neg h] at hp
    rcases List.mem_append.mp hp with hp | hp
    · refine Or.inr ⟨hp, ?_⟩
      intro hk
      exact h (List.any_eq_true.mpr ⟨p, hp, by simp [hk]⟩)
    · exact Or.inl (by simpa using hp)

theorem mem_dictPop {α : Type} {d : List (String × α)} {k : String}
    {p : String × α} (hp : p ∈ dictPop d k) : p ∈ d ∧ p.1 ≠ k := by
  unfold dictPop at hp
  have := List.mem_filter.mp hp
  exact ⟨this.1, by simpa using this.2⟩

theorem keys_nodup_dictSet {α : Type} (d : List (String × α)) (k : String)
    (v : α) (h : (d.map Prod.fst).Nodup) :
    ((dictSet d k v).map Prod.fst).Nodup := by
  unfold dictSet
  by_cases hany : d.any (fun p => p.1 = k)
  · rw [if_pos hany]
    have hkeys : (d.map (fun p => if p.1 = k then (k, v) else p)).map Prod.fst
        = d.map Prod.fst := by
      rw [List.map_map]
      apply List.map_congr_left
      intro a _
      by_cases ha : a.1 = k
      · simp [ha]
      · simp [ha]
    rw [hkeys]
    exact h
  · rw [if_neg hany]
    rw [List.map_append]
    rw [List.nodup_append]
    refine ⟨h, by simp, ?_⟩
    intro x hx
    simp only [List.map_cons, List.map_nil, List.mem_singleton]
    intro hxk
    subst hxk
    obtain ⟨q, hq, hqk⟩ := List.mem_map.mp hx
    exact hany (List.any_eq_true.mpr ⟨q, hq, by simp [hqk]⟩)

theorem keys_nodup_dictPop {α : Type} (d : List (String × α)) (k : String)
    (h : (d.map Prod.fst).Nodup) : ((dictPop d k).map Prod.fst).Nodup := by
  unfold dictPop
  have hs : ((d.filter (fun p => p.1 ≠ k)).map Prod.fst).Sublist
      (d.map Prod.fst) := (List.filter_sublist d).map Prod.fst
  exact hs.nodup h

theorem dictGet_mem {α : Type} {d : List (String × α)} {k : String} {v : α}
    (h : dictGet d k = some v) : (k, v) ∈ d := by
  unfold dictGet at h
  obtain ⟨q, hq, hqe⟩ := Option.map_eq_some'.mp h
  have hk := List.find?_some hq
  simp only [decide_eq_true_eq] at hk
  have hm := List.mem_of_find?_eq_some hq
  have : q = (k, v) := by
    cases q
    simp only at hk hqe
    simp [hk, hqe]
  exact this ▸ hm

/-- C5: renaming `oldName` to a distinct `newName` re-keys the store:
the record is found under the new name with its name field updated, the
old key is gone, the key-equals-name invariant and key uniqueness are
preserved, and no two keys map to the same record. -/
theorem c5_rename_rekeys (b : AddressBook) (oldName newName : String)
    (r : Record) (hinv : bookInv b) (hnd : keysNodup b)
    (hfind : find b oldName = some r) (hne : newName ≠ oldName) :
    (change_name_command [oldName, newName] b).1 = "Name updated." ∧
    find (change_name_command [oldName, newName] b).2 newName =
      some { r with name := newName } ∧
    find (change_name_command [oldName, newName] b).2 oldName = none ∧
    bookInv (change_name_command [oldName, newName] b).2 ∧
    keysNodup (change_name_command [oldName, newName] b).2 ∧
    (∀ p ∈ (change_name_command [oldName, newName] b).2.data,
      ∀ q ∈ (change_name_command [oldName, newName] b).2.data,
        p.2 = q.2 → p.1 = q.1) := by
  have hstep : change_name_command [oldName, newName] b =
      ("Name updated.",
        ⟨dictSet (dictPop (dictSet b.data oldName { r with name := newName })
          oldName) newName { r with name := newName }⟩) := by
    simp only [change_name_command, hfind]
  rw [hstep]
  have hinvNew : ∀ p ∈ (dictSet (dictPop
      (dictSet b.data oldName { r with name := newName }) oldName) newName
      { r with name := newName }), p.1 = p.2.name := by
    intro p hp
    rcases mem_dictSet hp with rfl | ⟨hp2, _⟩
    · rfl
    · obtain ⟨hp3, hpo⟩ := mem_dictPop hp2
      rcases mem_dictSet hp3 with rfl | ⟨hp4, _⟩
      · exact absurd rfl hpo
      · exact hinv p hp4
  refine ⟨rfl, ?_, ?_, ?_, ?_, ?_⟩
  · exact dictGet_dictSet_self _ _ _
  · show dictGet _ oldName = none
    rw [dictGet_dictSet_ne _ _ _ _ (Ne.symm hne)]
    exact dictGet_dictPop_self _ _
  · exact hinvNew
  · exact keys_nodup_dictSet _ _ _
      (keys_nodup_dictPop _ _ (keys_nodup_dictSet _ _ _ hnd))
  · intro p hp q hq hpq
    rw [hinvNew p hp, hinvNew q hq, hpq]

/-- Witness for C5: renaming Al to Bo in a one-record book. -/
theorem c5_rename_rekeys_witness :
    (change_name_command ["Al", "Bo"] ⟨[("Al", recordNew "Al")]⟩).1 =
      "Name updated." ∧
    find (change_name_command ["Al", "Bo"] ⟨[("Al", recordNew "Al")]⟩).2 "Bo" =
      some { recordNew "Al" with name := "Bo" } ∧
    find (change_name_command ["Al", "Bo"] ⟨[("Al", recordNew "Al")]⟩).2 "Al" =
      none ∧
    bookInv (change_name_command ["Al", "Bo"] ⟨[("Al", recordNew "Al")]⟩).2 ∧
    keysNodup (change_name_command ["Al", "Bo"] ⟨[("Al", recordNew "Al")]⟩).2 ∧
    (∀ p ∈ (change_name_command ["Al", "Bo"] ⟨[("Al", recordNew "Al")]⟩).2.data,
      ∀ q ∈ (change_name_command ["Al", "Bo"] ⟨[("Al", recordNew "Al")]⟩).2.data,
        p.2 = q.2 → p.1 = q.1) :=
  c5_rename_rekeys ⟨[("Al", recordNew "Al")]⟩ "Al" "Bo" (recordNew "Al")
    (by intro p hp; simp only [List.mem_singleton] at hp; rw [hp]; rfl)
    (by show ([("Al", recordNew "Al")].map Prod.fst).Nodup; decide)
    (by decide) (by decide)

theorem decStrs_enc (xs : List String) (rest : List Tok) :
    decStrs xs.length (xs.map Tok.s ++ rest) = some (xs, rest) := by
  induction xs with
  | nil => rfl
  | cons x t ih => simp [decStrs, ih]

theorem decListStr_enc (xs : List String) (rest : List Tok) :
    decListStr (encListStr xs ++ rest) = some (xs, rest) := by
  simp [encListStr, decListStr, decStrs_enc]

theorem decOpt_enc (o : Option String) (rest : List Tok) :
    decOpt (encOpt o ++ rest) = some (o, rest) := by
  cases o <;> rfl

theorem decRecord_enc (r : Record) (rest : List Tok) :
    decRecord (encRecord r ++ rest) = some (r, rest) := by
  simp [encRecord, decRecord, decStr, decListStr_enc, decOpt_enc,
    List.append_assoc]

theorem decEntries_enc (d : List (String × Record)) (rest : List Tok) :
    decEntries d.length
      (d.flatMap (fun e => Tok.s e.1 :: encRecord e.2) ++ rest) =
      some (d, rest) := by
  induction d with
  | nil => rfl
  | cons e t ih =>
    cases e with
    | mk k r =>
      simp [List.flatMap_cons, decEntries, decStr, List.append_assoc,
        decRecord_enc, ih]

theorem pickleLoad_pickleDump (d : List (String × Record)) :
    pickleLoad (pickleDump d) = some d := by
  have h := decEntries_enc d []
  rw [List.append_nil] at h
  simp [pickleLoad, pickleDump, h]

/-- C8: restoring from the destination the book was persisted to yields
a store equal, field for field per record, to the original. -/
theorem c8_persist_restore_roundtrip (fs : FileSys) (filename : String)
    (b : AddressBook) :
    load_from_file (save_to_file fs filename b) filename = some b := by
  unfold load_from_file save_to_file
  rw [dictGet_dictSet_self]
  simp [pickleLoad_pickleDump]

theorem load_from_file_isSome (fs : FileSys) (f : String) :
    (load_from_file fs f).isSome = loadOk fs f := by
  rcases h : dictGet fs f with _ | toks <;>
    simp [load_from_file, loadOk, h]

/-- C9 (counterexample): the empty input line is not a close/exit token
(it has no tokens at all), yet it terminates the loop: the starred
unpacking in `parse_input` raises an uncaught `ValueError`. -/
theorem c9_counterexample :
    mainStep env0 st0 "" = StepResult.crash ∧ pyWords "" = [] :=
  ⟨rfl, rfl⟩

set_option maxHeartbeats 1000000 in
/-- C9 (amended): for every input line with at least one token — where a
`find-by-phone`/`find-by-email` command carries an argument and a `load`
command names an absent or well-formed file — the loop exits exactly on a
close/exit command token and never dies on an uncaught exception; every
handler failure is converted to a message and the loop continues. -/
theorem c9_loop_exit_iff (env : Env) (st : LoopState) (line cmd : String)
    (args : List String) (hp : parse_input line = some (cmd, args))
    (hfind : cmd = "find-by-phone" ∨ cmd = "find-by-email" → args ≠ [])
    (hload : cmd = "load" → loadOk st.fs env.filename = true) :
    (mainStep env st line = StepResult.exited ↔
      (cmd = "close" ∨ cmd = "exit")) ∧
    mainStep env st line ≠ StepResult.crash := by
  have hm : mainStep env st line = dispatch env st cmd args := by
    simp only [mainStep, hp]
  rw [hm]
  unfold dispatch
  by_cases h1 : cmd = "close" ∨ cmd = "exit"
  · rw [if_pos h1]
    exact ⟨iff_of_true rfl h1, fun hx => StepResult.noConfusion hx⟩
  rw [if_neg h1]
  have contGoal : ∀ st2 : LoopState,
      (StepResult.cont st2 = StepResult.exited ↔
        (cmd = "close" ∨ cmd = "exit")) ∧
      StepResult.cont st2 ≠ StepResult.crash :=
    fun st2 => ⟨iff_of_false (fun hx => StepResult.noConfusion hx) h1,
      fun hx => StepResult.noConfusion hx⟩
  by_cases h2 : cmd = "help"
  · rw [if_pos h2]; exact contGoal _
  rw [if_neg h2]
  by_cases h3 : cmd = "hello"
  · rw [if_pos h3]; exact contGoal _
  rw [if_neg h3]
  by_cases h4 : cmd = "add"
  · rw [if_pos h4]; exact contGoal _
  rw [if_neg h4]
  by_cases h5 : cmd = "change"
  · rw [if_pos h5]; exact contGoal _
  rw [if_neg h5]
  by_cases h6 : cmd = "search-by-tag"
  · rw [if_pos h6]; exact contGoal _
  rw [if_neg h6]
  by_cases h7 : cmd = "sort-by-tags"
  · rw [if_pos h7]; exact contGoal _
  rw [if_neg h7]
  by_cases h8 : cmd = "phone"
  · rw [if_pos h8]; exact contGoal _
  rw [if_neg h8]
  by_cases h9 : cmd = "find-by-phone"
  · rw [if_pos h9]
    rcases args with _ | ⟨a, t⟩
    · exact absurd rfl (hfind (Or.inl h9))
    · exact contGoal _
  rw [if_neg h9]
  by_cases h10 : cmd = "find-by-email"
  · rw [if_pos h10]
    rcases args with _ | ⟨a, t⟩
    · exact absurd rfl (hfind (Or.inr h10))
    · exact contGoal _
  rw [if_neg h10]
  by_cases h11 : cmd = "all"
  · rw [if_pos h11]; exact contGoal _
  rw [if_neg h11]
  by_cases h12 : cmd = "add-birthday"
  · rw [if_pos h12]; exact contGoal _
  rw [if_neg h12]
  by_cases h13 : cmd = "show-birthday"
  · rw [if_pos h13]; exact contGoal _
  rw [if_neg h13]
  by_cases h14 : cmd = "birthdays"
  · rw [if_pos h14]; exact contGoal _
  rw [if_neg h14]
  by_cases h15 : cmd = "notes"
  · rw [if_pos h15]; exact contGoal _
  rw [if_neg h15]
  by_cases h16 : cmd = "add-notes"
  · rw [if_pos h16]; exact contGoal _
  rw [if_neg h16]
  by_cases h17 : cmd = "add-tag"
  · rw [if_pos h17]; exact contGoal _
  rw [if_neg h17]
  by_cases h18 : cmd = "show-tags"
  · rw [if_pos h18]; exact contGoal _
  rw [if_neg h18]
  by_cases h19 : cmd = "delete-contact"
  · rw [if_pos h19]; exact contGoal _
  rw [if_neg h19]
  by_cases h20 : cmd = "delete-email"
  · rw [if_pos h20]; exact contGoal _
  rw [if_neg h20]
  by_cases h21 : cmd = "delete-address"
  · rw [if_pos h21]; exact contGoal _
  rw [if_neg h21]
  by_cases h22 : cmd = "delete-phone"
  · rw [if_pos h22]; exact contGoal _
  rw [if_neg h22]
  by_cases h23 : cmd = "delete-birthday"
  · rw [if_pos h23]; exact contGoal _
  rw [if_neg h23]
  by_cases h24 : cmd = "delete-all-tags"
  · rw [if_pos h24]; exact contGoal _
  rw [if_neg h24]
  by_cases h25 : cmd = "save"
  · rw [if_pos h25]; exact contGoal _
  rw [if_neg h25]
  by_cases h26 : cmd = "load"
  · rw [if_pos h26]
    rcases hlf : load_from_file st.fs env.filename with _ | b2
    · exfalso
      have hs := load_from_file_isSome st.fs env.filename
      rw [hlf, hload h26] at hs
      cases hs
    · exact contGoal _
  rw [if_neg h26]
  exact contGoal _

theorem headNotAt_iff (l : List Char) :
    headNotAt l = true ↔ ∃ c r, l = c :: r ∧ c ≠ '@' := by
  cases l with
  | nil => simp [headNotAt]
  | cons c r =>
    constructor
    · intro h
      exact ⟨c, r, rfl, by simpa [headNotAt] using h⟩
    · rintro ⟨c2, r2, he, hc⟩
      cases he
      simpa [headNotAt] using hc

theorem matchDotTail_iff (l : List Char) :
    matchDotTail l = true ↔
      ∃ b c r, l = b ++ '.' :: c :: r ∧ '@' ∉ b ∧ c ≠ '@' := by
  induction l with
  | nil =>
    simp only [matchDotTail, Bool.false_eq_true, false_iff]
    rintro ⟨b, c, r, h, _, _⟩
    cases b <;> simp at h
  | cons a t ih =>
    by_cases ha : a = '@'
    · subst ha
      rw [show matchDotTail ('@' :: t) = false from rfl]
      simp only [Bool.false_eq_true, false_iff]
      rintro ⟨b, c, r, h, hb, _⟩
      cases b with
      | nil => simp at h
      | cons x b2 =>
        rw [List.cons_append, List.cons.injEq] at h
        exact hb (by rw [List.mem_cons]; exact Or.inl h.1)
    · simp only [matchDotTail, if_neg ha, Bool.or_eq_true, Bool.and_eq_true,
        decide_eq_true_eq]
      rw [ih]
      constructor
      · rintro (⟨had, hh⟩ | ⟨b, c, r, rfl, hb, hc⟩)
        · obtain ⟨c, r, rfl, hc⟩ := (headNotAt_iff t).mp hh
          exact ⟨[], c, r, by rw [had, List.nil_append], by simp, hc⟩
        · refine ⟨a :: b, c, r, rfl, ?_, hc⟩
          rw [List.mem_cons]
          rintro (h | h)
          · exact ha h.symm
          · exact hb h
      · rintro ⟨b, c, r, ht, hb, hc⟩
        cases b with
        | nil =>
          rw [List.nil_append, List.cons.injEq] at ht
          exact Or.inl ⟨ht.1, (headNotAt_iff t).mpr ⟨c, r, ht.2, hc⟩⟩
        | cons x b2 =>
          rw [List.cons_append, List.cons.injEq] at ht
          refine Or.inr ⟨b2, c, r, ht.2, ?_, hc⟩
          intro h
          exact hb (by rw [List.mem_cons]; exact Or.inr h)

theorem matchAfterAt_iff (l : List Char) :
    matchAfterAt l = true ↔
      ∃ b c r, l = b ++ '.' :: c :: r ∧ b ≠ [] ∧ '@' ∉ b ∧ c ≠ '@' := by
  cases l with
  | nil =>
    simp only [matchAfterAt, Bool.false_eq_true, false_iff]
    rintro ⟨b, c, r, h, _, _, _⟩
    cases b <;> simp at h
  | cons a t =>
    simp only [matchAfterAt, Bool.and_eq_true, decide_eq_true_eq]
    rw [matchDotTail_iff]
    constructor
    · rintro ⟨ha, b, c, r, rfl, hb, hc⟩
      refine ⟨a :: b, c, r, rfl, by simp, ?_, hc⟩
      rw [List.mem_cons]
      rintro (h | h)
      · exact ha h.symm
      · exact hb h
    · rintro ⟨b, c, r, ht, hbne, hb, hc⟩
      cases b with
      | nil => exact absurd rfl hbne
      | cons x b2 =>
        rw [List.cons_append, List.cons.injEq] at ht
        obtain ⟨rfl, rfl⟩ := ht
        refine ⟨?_, b2, c, r, rfl, ?_, hc⟩
        · intro h
          exact hb (by rw [List.mem_cons]; exact Or.inl h.symm)
        · intro h
          exact hb (by rw [List.mem_cons]; exact Or.inr h)

theorem matchAtLocal_iff (l : List Char) :
    matchAtLocal l = true ↔
      ∃ a b c r, l = a ++ '@' :: (b ++ '.' :: c :: r) ∧ '@' ∉ a ∧
        b ≠ [] ∧ '@' ∉ b ∧ c ≠ '@' := by
  induction l with
  | nil =>
    simp only [matchAtLocal, Bool.false_eq_true, false_iff]
    rintro ⟨a, b, c, r, h, _, _, _, _⟩
    cases a <;> simp at h
  | cons x t ih =>
    by_cases hx : x = '@'
    · subst hx
      rw [show matchAtLocal ('@' :: t) = matchAfterAt t from rfl]
      rw [matchAfterAt_iff]
      constructor
      · rintro ⟨b, c, r, rfl, hbne, hb, hc⟩
        exact ⟨[], b, c, r, by rw [List.nil_append], by simp, hbne, hb, hc⟩
      · rintro ⟨a, b, c, r, ht, ha, hbne, hb, hc⟩
        cases a with
        | nil =>
          rw [List.nil_append, List.cons.injEq] at ht
          exact ⟨b, c, r, ht.2, hbne, hb, hc⟩
        | cons y a2 =>
          rw [List.cons_append, List.cons.injEq] at ht
          exact absurd (by rw [List.mem_cons]; exact Or.inl ht.1) ha
    · simp only [matchAtLocal, if_neg hx]
      rw [ih]
      constructor
      · rintro ⟨a, b, c, r, rfl, ha, hbne, hb, hc⟩
        refine ⟨x :: a, b, c, r, rfl, ?_, hbne, hb, hc⟩
        rw [List.mem_cons]
        rintro (h | h)
        · exact hx h.symm
        · exact ha h
      · rintro ⟨a, b, c, r, ht, ha, hbne, hb, hc⟩
        cases a with
        | nil =>
          rw [List.nil_append, List.cons.injEq] at ht
          exact absurd ht.1 hx
        | cons y a2 =>
          rw [List.cons_append, List.cons.injEq] at ht
          refine ⟨a2, b, c, r, ht.2, ?_, hbne, hb, hc⟩
          intro h
          exact ha (by rw [List.mem_cons]; exact Or.inr h)

theorem emailRegexMatch_iff (l : List Char) :
    emailRegexMatch l = true ↔ emailShape l := by
  cases l with
  | nil =>
    simp only [emailRegexMatch, Bool.false_eq_true, false_iff]
    rintro ⟨a, b, c, r, h, hane, _, _, _, _⟩
    cases a <;> simp at h
  | cons x t =>
    simp only [emailRegexMatch, Bool.and_eq_true, decide_eq_true_eq]
    rw [matchAtLocal_iff]
    unfold emailShape
    constructor
    · rintro ⟨hx, a, b, c, r, rfl, ha, hbne, hb, hc⟩
      refine ⟨x :: a, b, c, r, rfl, by simp, ?_, hbne, hb, hc⟩
      rw [List.mem_cons]
      rintro (h | h)
      · exact hx h.symm
      · exact ha h
    · rintro ⟨a, b, c, r, ht, hane, ha, hbne, hb, hc⟩
      cases a with
      | nil => exact absurd rfl hane
      | cons y a2 =>
        rw [List.cons_append, List.cons.injEq] at ht
        obtain ⟨rfl, rfl⟩ := ht
        refine ⟨?_, a2, b, c, r, rfl, ?_, hbne, hb, hc⟩
        · intro h
          exact ha (by rw [List.mem_cons]; exact Or.inl h.symm)
        · intro h
          exact ha (by rw [List.mem_cons]; exact Or.inr h)

/-- C6 (counterexample): `a@b.c@d` contains two `@`, yet the Email
constructor accepts it — `re.match` only requires a matching prefix. -/
theorem c6_counterexample :
    (EmailInit "a@b.c@d").isOk = true ∧
    "a@b.c@d".toList.count '@' = 2 := by
  constructor
  · rfl
  · rfl

/-- C6 (amended): the Email constructor accepts exactly the texts with a
PREFIX of the shape local`@`domain`.`x — local and domain nonempty and
`@`-free, x one further non-`@` character; the rest of the text is
unconstrained, so extra `@` or dots after that prefix are accepted, while
one-`@` inputs like `a@.c` or `a@b.` are rejected. -/
theorem c6_email_accepts_iff (s : String) :
    (EmailInit s).isOk = true ↔ emailShape s.toList := by
  rw [← emailRegexMatch_iff]
  unfold EmailInit
  by_cases h : emailRegexMatch s.toList
  · rw [if_pos h]
    exact iff_of_true rfl h
  · rw [if_neg h]
    exact iff_of_false (fun hx => by cases hx) h

/-- Witness for C9 at the input line `hello`. -/
theorem c9_loop_exit_iff_witness :
    (mainStep env0 st0 "hello" = StepResult.exited ↔
      ("hello" = "close" ∨ "hello" = "exit")) ∧
    mainStep env0 st0 "hello" ≠ StepResult.crash :=
  c9_loop_exit_iff env0 st0 "hello" "hello" [] (by rfl)
    (fun h => by rcases h with h | h <;> exact absurd h (by decide))
    (fun h => absurd h (by decide))

theorem splitDots_ne_nil (l : List Char) : splitDots l ≠ [] := by
  induction l with
  | nil => simp [splitDots]
  | cons c t ih =>
    unfold splitDots
    by_cases hc : c = '.'
    · rw [if_pos hc]; simp
    · rw [if_neg hc]
      obtain ⟨h0, t0, he⟩ := List.exists_cons_of_ne_nil ih
      rw [he]
      simp

theorem splitDots_noDot (a : List Char) (ha : '.' ∉ a) : splitDots a = [a] := by
  induction a with
  | nil => rfl
  | cons x a2 ih =>
    have hx : ¬x = '.' := fun h => ha (List.mem_cons.mpr (Or.inl h.symm))
    have ih2 := ih (fun hd => ha (List.mem_cons.mpr (Or.inr hd)))
    unfold splitDots
    rw [if_neg hx, ih2]

theorem splitDots_append_noDot (a rest : List Char) (ha : '.' ∉ a) :
    splitDots (a ++ '.' :: rest) = a :: splitDots rest := by
  induction a with
  | nil =>
    show splitDots ('.' :: rest) = [] :: splitDots rest
    conv_lhs => unfold splitDots
    rw [if_pos rfl]
  | cons x a2 ih =>
    have hx : ¬x = '.' := fun h => ha (List.mem_cons.mpr (Or.inl h.symm))
    have ih2 := ih (fun hd => ha (List.mem_cons.mpr (Or.inr hd)))
    show splitDots (x :: (a2 ++ '.' :: rest)) = (x :: a2) :: splitDots rest
    conv_lhs => unfold splitDots
    rw [if_neg hx, ih2]

theorem splitDots_join (l : List Char) : joinDots (splitDots l) = l := by
  induction l with
  | nil => rfl
  | cons c t ih =>
    obtain ⟨h0, t0, he⟩ := List.exists_cons_of_ne_nil (splitDots_ne_nil t)
    unfold splitDots
    by_cases hc : c = '.'
    · rw [if_pos hc, he]
      show ([] : List Char) ++ '.' :: joinDots (h0 :: t0) = c :: t
      rw [List.nil_append, ← he, ih, hc]
    · rw [if_neg hc, he]
      cases t0 with
      | nil =>
        have h3 := ih
        rw [he] at h3
        show c :: h0 = c :: t
        rw [show h0 = t from h3]
      | cons u t1 =>
        show (c :: h0) ++ '.' :: joinDots (u :: t1) = c :: t
        rw [List.cons_append]
        congr 1
        have h3 := ih
        rw [he] at h3
        exact h3

theorem char_le_iff (a b : Char) : a ≤ b ↔ a.toNat ≤ b.toNat := by
  rw [Char.le_def]
  exact ⟨fun h => h, fun h => h⟩

theorem char_eq_iff (a b : Char) : a = b ↔ a.toNat = b.toNat := by
  constructor
  · intro h; rw [h]
  · intro h; exact Char.eq_of_val_eq (UInt32.eq_of_val_eq (Fin.ext h))

theorem char_isDigit_iff (c : Char) :
    c.isDigit = true ↔ 48 ≤ c.toNat ∧ c.toNat ≤ 57 := by
  simp only [Char.isDigit, Bool.and_eq_true, decide_eq_true_eq]
  constructor <;> exact fun h => ⟨h.1, h.2⟩

theorem toNatDot : ('.' : Char).toNat = 46 := rfl

theorem toNatD0 : ('0' : Char).toNat = 48 := rfl

theorem toNatD1 : ('1' : Char).toNat = 49 := rfl

theorem toNatD2 : ('2' : Char).toNat = 50 := rfl

theorem toNatD3 : ('3' : Char).toNat = 51 := rfl

theorem toNatD9 : ('9' : Char).toNat = 57 := rfl

theorem dayFieldOk_iff (f : List Char) :
    dayFieldOk f = true ↔
      ((∀ c ∈ f, c.isDigit = true) ∧ (f.length = 1 ∨ f.length = 2) ∧
        1 ≤ digitsToNat f ∧ digitsToNat f ≤ 31) := by
  match f with
  | [] => simp [dayFieldOk]
  | [c] =>
    simp only [dayFieldOk, Bool.and_eq_true, decide_eq_true_eq, char_le_iff,
      List.forall_mem_cons, List.not_mem_nil, false_implies, forall_const,
      char_isDigit_iff, digitsToNat, List.foldl, toNatD1, toNatD9,
      List.length_cons, List.length_nil, true_or, or_true, true_and,
      and_true]
    omega
  | [c1, c2] =>
    simp only [dayFieldOk, Bool.and_eq_true, Bool.or_eq_true,
      decide_eq_true_eq, char_le_iff, char_eq_iff, char_isDigit_iff,
      List.forall_mem_cons, List.not_mem_nil, false_implies, forall_const,
      digitsToNat, List.foldl, toNatD0, toNatD1, toNatD2, toNatD3,
      toNatD9, List.length_cons, List.length_nil, true_or, or_true,
      true_and, and_true]
    omega
  | c1 :: c2 :: c3 :: tl =>
    simp only [dayFieldOk, Bool.false_eq_true, false_iff]
    rintro ⟨_, hl, _⟩
    simp only [List.length_cons] at hl
    omega

theorem monthFieldOk_iff (f : List Char) :
    monthFieldOk f = true ↔
      ((∀ c ∈ f, c.isDigit = true) ∧ (f.length = 1 ∨ f.length = 2) ∧
        1 ≤ digitsToNat f ∧ digitsToNat f ≤ 12) := by
  match f with
  | [] => simp [monthFieldOk]
  | [c] =>
    simp only [monthFieldOk, Bool.and_eq_true, decide_eq_true_eq, char_le_iff,
      List.forall_mem_cons, List.not_mem_nil, false_implies, forall_const,
      char_isDigit_iff, digitsToNat, List.foldl, toNatD1, toNatD9,
      List.length_cons, List.length_nil, true_or, or_true, true_and,
      and_true]
    omega
  | [c1, c2] =>
    simp only [monthFieldOk, Bool.and_eq_true, Bool.or_eq_true,
      decide_eq_true_eq, char_le_iff, char_eq_iff, char_isDigit_iff,
      List.forall_mem_cons, List.not_mem_nil, false_implies, forall_const,
      digitsToNat, List.foldl, toNatD0, toNatD1, toNatD2,
      toNatD9, List.length_cons, List.length_nil, true_or, or_true,
      true_and, and_true]
    omega
  | c1 :: c2 :: c3 :: tl =>
    simp only [monthFieldOk, Bool.false_eq_true, false_iff]
    rintro ⟨_, hl, _⟩
    simp only [List.length_cons] at hl
    omega

theorem yearFieldOk_iff (f : List Char) :
    yearFieldOk f = true ↔ (f.length = 4 ∧ ∀ c ∈ f, c.isDigit = true) := by
  simp [yearFieldOk, List.all_eq_true]

theorem datetimeOk_iff (y m d : Nat) :
    datetimeOk y m d = true ↔
      (1 ≤ y ∧ y ≤ 9999 ∧ 1 ≤ m ∧ m ≤ 12 ∧ 1 ≤ d ∧ d ≤ daysInMonth y m) := by
  simp [datetimeOk, Bool.and_eq_true, decide_eq_true_eq, and_assoc]

theorem daysInMonth_le (y m : Nat) : daysInMonth y m ≤ 31 := by
  unfold daysInMonth
  split_ifs <;> omega

theorem strptimeDMY_isSome_iff (s : String) :
    (strptimeDMY s).isSome = true ↔ birthdayShape s := by
  constructor
  · intro hs
    rcases hv : strptimeDMY s with _ | v
    · rw [hv] at hs; cases hs
    · unfold strptimeDMY at hv
      split at hv
      · rename_i df mf yf heq
        split_ifs at hv with hfields hdt
        · rw [Bool.and_eq_true, Bool.and_eq_true] at hfields
          obtain ⟨⟨hday, hmon⟩, hyear⟩ := hfields
          obtain ⟨hddig, hdl, hd1, hd31⟩ := (dayFieldOk_iff df).mp hday
          obtain ⟨hmdig, hml, hm1, hm12⟩ := (monthFieldOk_iff mf).mp hmon
          obtain ⟨hyl, hydig⟩ := (yearFieldOk_iff yf).mp hyear
          refine ⟨df, mf, yf, ?_, hddig, hmdig, hydig, ?_, ?_, ?_, ?_, hyl, hdt⟩
          · have hj := splitDots_join s.toList
            rw [heq] at hj
            exact hj.symm
          · rcases hdl with h | h <;> omega
          · rcases hdl with h | h <;> omega
          · rcases hml with h | h <;> omega
          · rcases hml with h | h <;> omega
      · cases hv
  · rintro ⟨df, mf, yf, hdecomp, hddig, hmdig, hydig, hdl1, hdl2, hml1, hml2,
      hyl, hdt⟩
    have hdnd : '.' ∉ df := fun hm => absurd (hddig '.' hm) (by decide)
    have hmnd : '.' ∉ mf := fun hm => absurd (hmdig '.' hm) (by decide)
    have hynd : '.' ∉ yf := fun hm => absurd (hydig '.' hm) (by decide)
    have hsd : splitDots s.toList = [df, mf, yf] := by
      rw [hdecomp, splitDots_append_noDot df _ hdnd,
        splitDots_append_noDot mf _ hmnd, splitDots_noDot yf hynd]
    obtain ⟨hdtY, hdtM, hdtD⟩ :
        (1 ≤ digitsToNat yf ∧ digitsToNat yf ≤ 9999) ∧
        (1 ≤ digitsToNat mf ∧ digitsToNat mf ≤ 12) ∧
        (1 ≤ digitsToNat df ∧
          digitsToNat df ≤ daysInMonth (digitsToNat yf) (digitsToNat mf)) := by
      obtain ⟨a1, a2, a3, a4, a5, a6⟩ := (datetimeOk_iff _ _ _).mp hdt
      exact ⟨⟨a1, a2⟩, ⟨a3, a4⟩, ⟨a5, a6⟩⟩
    have hday : dayFieldOk df = true := by
      refine (dayFieldOk_iff df).mpr ⟨hddig, by omega, hdtD.1, ?_⟩
      have := daysInMonth_le (digitsToNat yf) (digitsToNat mf)
      omega
    have hmon : monthFieldOk mf = true :=
      (monthFieldOk_iff mf).mpr ⟨hmdig, by omega, hdtM.1, hdtM.2⟩
    have hyear : yearFieldOk yf = true :=
      (yearFieldOk_iff yf).mpr ⟨hyl, hydig⟩
    unfold strptimeDMY
    rw [hsd]
    simp [hday, hmon, hyear, hdt]

/-- C7 (counterexample): `1.1.2000` is accepted by the Birthday
constructor although its day and month are not zero-padded two-digit
fields (a `DD.MM.YYYY` text would have 10 characters; this one has 8). -/
theorem c7_counterexample :
    (BirthdayInit "1.1.2000").isOk = true ∧ "1.1.2000".length ≠ 10 := by
  constructor
  · rfl
  · decide

/-- C7 (amended): the Birthday constructor accepts a text iff it is
day`.`month`.`year with an all-digit day of 1 or 2 digits, an all-digit
month of 1 or 2 digits, an all-digit year of exactly 4 digits, and the
values form a valid calendar date (year between 1 and 9999, month 1-12,
day within the month's length); zero padding of day and month is NOT
required, `strptime`'s `%d`/`%m` accept single digits. -/
theorem c7_birthday_accepts_iff (s : String) :
    (BirthdayInit s).isOk = true ↔ birthdayShape s := by
  rw [← strptimeDMY_isSome_iff]
  unfold BirthdayInit
  rcases h : strptimeDMY s with _ | v <;> simp [h, Except.isOk, Except.toBool]

end TrainMain
